import Mathlib

/-!
# AI Podcast Generator client (`src/App.jsx`)

A shallow embedding of the single React component of the repository:

* the derived guest list `guestsArray` (lines 27-32),
* the submit handler `handleSubmit` (lines 35-57), as a step function over the
  component state, driven by the outcome of the one network request,
* the result panel of the view (lines 175-221).

JavaScript strings are modelled by `String`.  Values coming out of
`JSON.parse` are modelled by `JSValue`; `undefined` (a missing property) is
`none` in an `Option JSValue`.  Exceptions are modelled by `Except String`,
the string being the `message` of the thrown error object.
-/

namespace PodcastClient

/-! ## JavaScript values -/

/-- A JSON number.  The program never computes with numbers: it only tests
them for truthiness (`0` and `-0` are falsy) and converts them to text, so a
number is represented by these two observations. -/
structure JSNumber where
  isZero : Bool
  text : String

/-- A value produced by `JSON.parse`. -/
inductive JSValue where
  | null
  | bool (b : Bool)
  | num (n : JSNumber)
  | str (s : String)
  | arr (items : List JSValue)
  | obj (fields : List (String × JSValue))

/-- The texts of the two `TypeError`s the program can provoke; ECMAScript
leaves them to the engine. -/
structure Engine where
  /-- Message of the `TypeError` thrown by reading property `p` of `null`. -/
  nullReadMessage : String → String
  /-- Message of the `TypeError` thrown when an object has no usable
  `toString`/`valueOf`. -/
  toPrimitiveMessage : String

/-- The messages used by V8 (Chrome, Node). -/
def v8 : Engine where
  nullReadMessage := fun p => "Cannot read properties of null (reading '" ++ p ++ "')"
  toPrimitiveMessage := "Cannot convert object to primitive value"

/-- Own-property lookup in a parsed object. -/
def lookup (name : String) : List (String × JSValue) → Option JSValue
  | [] => none
  | (k, v) :: rest => if k = name then some v else lookup name rest

/-- Property read `v.name`, for the property names the program reads
(`error`, `script`, `audio`, `speaker`, `text`), none of which is supplied by
a built-in prototype: reading from `null` throws, an object yields its own
property, every other value yields `undefined`. -/
def getProp (eng : Engine) (v : JSValue) (name : String) : Except String (Option JSValue) :=
  match v with
  | .null => .error (eng.nullReadMessage name)
  | .obj fields => .ok (lookup name fields)
  | _ => .ok none

/-- JavaScript truthiness (`ToBoolean`); `none` is `undefined`. -/
def truthy : Option JSValue → Bool
  | none => false
  | some .null => false
  | some (.bool b) => b
  | some (.num n) => !n.isZero
  | some (.str s) => s.length > 0
  | some (.arr _) => true
  | some (.obj _) => true

mutual
/-- JavaScript `ToString` on a parsed value.  An array is joined with `,`;
a plain object gives `[object Object]` unless it carries an own `toString`
property (never callable in parsed JSON), in which case the conversion
throws. -/
def toStr (eng : Engine) : JSValue → Except String String
  | .null => .ok "null"
  | .bool b => .ok (if b then "true" else "false")
  | .num n => .ok n.text
  | .str s => .ok s
  | .arr items => (itemsStr eng items).map (String.intercalate ",")
  | .obj fields =>
      if (lookup "toString" fields).isSome then .error eng.toPrimitiveMessage
      else .ok "[object Object]"
/-- The element texts used by `Array.prototype.join`: `null` gives the empty
string, every other element its `ToString`. -/
def itemsStr (eng : Engine) : List JSValue → Except String (List String)
  | [] => .ok []
  | .null :: rest => (itemsStr eng rest).map (fun r => "" :: r)
  | x :: rest =>
      match toStr eng x with
      | .error m => .error m
      | .ok a => (itemsStr eng rest).map (fun r => a :: r)
end

/-! ## The derived guest list (lines 27-32) -/

/-- The characters removed by `String.prototype.trim`: ECMAScript `WhiteSpace`
and `LineTerminator`. -/
def isWhiteSpace (c : Char) : Bool :=
  let n := c.toNat
  n == 0x09 || n == 0x0A || n == 0x0B || n == 0x0C || n == 0x0D || n == 0x20 ||
  n == 0xA0 || n == 0x1680 || (0x2000 ≤ n && n ≤ 0x200A) || n == 0x2028 ||
  n == 0x2029 || n == 0x202F || n == 0x205F || n == 0x3000 || n == 0xFEFF

/-- The scan of `String.prototype.split` for a one-character separator:
`piece` is the text read since the last separator. -/
def splitFrom (sep : Char) : List Char → List Char → List (List Char)
  | piece, [] => [piece]
  | piece, c :: rest =>
      if c = sep then piece :: splitFrom sep [] rest else splitFrom sep (piece ++ [c]) rest

/-- The call `s.split(sep)` for a one-character separator. -/
def split (s : String) (sep : Char) : List String :=
  (splitFrom sep [] s.data).map String.mk

/-- Removal of leading white space. -/
def trimStart : List Char → List Char
  | [] => []
  | c :: rest => if isWhiteSpace c then trimStart rest else c :: rest

/-- Removal of trailing white space. -/
def trimEnd (s : List Char) : List Char :=
  (trimStart s.reverse).reverse

/-- The call `s.trim()`. -/
def trim (s : String) : String :=
  String.mk (trimEnd (trimStart s.data))

/-- The memoised guest list of lines 27-32:
`guestsText.split(',').map((g) => g.trim()).filter((g) => g.length > 0)`. -/
def guestsArray (guestsText : String) : List String :=
  ((split guestsText ',').map trim).filter (fun g => g.length > 0)

/-- The guest list as the specification words it: split on commas, trim white
space from each piece, drop the pieces that are empty after trimming. -/
def guestListSpec (guestsText : String) : List String :=
  (((guestsText.data.splitOn ',').map
      (fun piece => (piece.dropWhile isWhiteSpace).rdropWhile isWhiteSpace)).filter
      (fun piece => piece ≠ [])).map String.mk

/-! ## Component state and the request (lines 17-25, 41-45) -/

/-- The two values offered by the gender `<select>` elements. -/
inductive Gender where
  | female
  | male
  deriving DecidableEq, Repr

/-- The nine `useState` cells of the component. -/
structure State where
  topic : String
  host : String
  guestsText : String
  info : String
  hostGender : Gender
  guestGender : Gender
  loading : Bool
  error : String
  result : JSValue

/-- The initial values of lines 17-25. -/
def initialState : State where
  topic := ""
  host := ""
  guestsText := ""
  info := ""
  hostGender := .female
  guestGender := .male
  loading := false
  error := ""
  result := .null

/-- The object serialised into the request body (line 44). -/
structure Payload where
  topic : String
  host : String
  guestname : List String
  info : String
  hostGender : Gender
  guestGender : Gender
  deriving DecidableEq

/-- The request body built on line 44 from the current state. -/
def requestBody (s : State) : Payload where
  topic := s.topic
  host := s.host
  guestname := guestsArray s.guestsText
  info := s.info
  hostGender := s.hostGender
  guestGender := s.guestGender

/-- What the program observes of a `Response`: its status and the outcome of
`resp.json()`, which resolves with the parsed body or rejects with an error
carrying a message. -/
structure Response where
  status : Nat
  json : Except String JSValue

/-- The getter `resp.ok`: the status is in the range 200-299. -/
def Response.ok (resp : Response) : Bool :=
  200 ≤ resp.status && resp.status ≤ 299

/-- How the `fetch` promise settles: it rejects with an error carrying a
message, or resolves with a response. -/
inductive Outcome where
  | rejected (message : String)
  | resolved (resp : Response)

/-! ## The submit handler (lines 35-57) -/

/-- The `try` block from the moment the `fetch` promise settles (lines 41-50):
the value handed to `setResult`, or the message of the error thrown. -/
def tryBlock (eng : Engine) : Outcome → Except String JSValue
  | .rejected message => .error message
  | .resolved resp =>
      if !resp.ok then
        -- line 47: `await resp.json().catch(() => ({}))`
        let data : JSValue :=
          match resp.json with
          | .ok v => v
          | .error _ => .obj []
        -- line 48: `throw new Error(data.error || ...)`
        match getProp eng data "error" with
        | .error m => .error m
        | .ok field =>
            let arg : JSValue :=
              match field with
              | some v => if truthy (some v) then v
                          else .str ("Request failed with " ++ toString resp.status)
              | none => .str ("Request failed with " ++ toString resp.status)
            match toStr eng arg with
            | .error m => .error m
            | .ok message => .error message
      else
        -- line 50: `await resp.json()`
        resp.json

/-- The value of `err.message || 'Something went wrong'` (line 53). -/
def errorText (message : String) : String :=
  if message.length > 0 then message else "Something went wrong"

/-- Control points of one run of `handleSubmit`. -/
inductive Pc where
  /-- The handler has been invoked (line 35). -/
  | entry
  /-- Lines 36-39 have run. -/
  | cleared
  /-- The request has been sent; the handler is suspended at `await fetch`
  (lines 41-45). -/
  | awaiting (body : Payload)
  /-- The `try` block produced `data`; line 51 is next. -/
  | store (data : JSValue)
  /-- An error with this message was thrown; line 53 is next. -/
  | caught (message : String)
  /-- The `finally` block (line 55) is next. -/
  | cleanup
  /-- The handler has returned. -/
  | settled

/-- A control point together with the component state. -/
structure Config where
  pc : Pc
  st : State

/-- One step of `handleSubmit`; `o` is how the `fetch` promise settles.  The
three setters of lines 37-39 are one step: React applies the updates queued
by an event handler together. -/
def step (eng : Engine) (o : Outcome) (c : Config) : Config :=
  match c.pc with
  | .entry => { pc := .cleared, st := { c.st with error := "", result := .null, loading := true } }
  | .cleared => { pc := .awaiting (requestBody c.st), st := c.st }
  | .awaiting _ =>
      match tryBlock eng o with
      | .ok data => { pc := .store data, st := c.st }
      | .error message => { pc := .caught message, st := c.st }
  | .store data => { pc := .cleanup, st := { c.st with result := data } }
  | .caught message => { pc := .cleanup, st := { c.st with error := errorText message } }
  | .cleanup => { pc := .settled, st := { c.st with loading := false } }
  | .settled => c

/-- The configuration after `n` steps. -/
def runSteps (eng : Engine) (o : Outcome) : Nat → Config → Config
  | 0, c => c
  | n + 1, c => runSteps eng o n (step eng o c)

/-- The configuration in which the request is sent: two steps after entry. -/
def atRequest (eng : Engine) (o : Outcome) (s : State) : Config :=
  runSteps eng o 2 { pc := .entry, st := s }

/-- The state once `handleSubmit` has settled: five steps after entry. -/
def handleSubmit (eng : Engine) (s : State) (o : Outcome) : State :=
  (runSteps eng o 5 { pc := .entry, st := s }).st

/-! ## The result panel (lines 175-221) -/

/-- The origin of line 2. -/
def API_BASE : String := "https://ai-podcast-backend-gen.onrender.com"

/-- One `script-line` element: the children placed in the speaker and text
`div`s (`undefined` is `none`). -/
structure ScriptLine where
  speaker : Option JSValue
  text : Option JSValue

/-- Content of the `script-content` element. -/
inductive ScriptView where
  /-- The element reading 'No script produced.' -/
  | noScript
  /-- One `script-line` per entry. -/
  | lines (ls : List ScriptLine)

/-- Content of the `audio-content` element. -/
inductive AudioView where
  /-- The element reading 'No audio url returned.' -/
  | noAudio
  /-- The `<audio>` element with this `src`. -/
  | player (src : String)

/-- The `results-container` element. -/
structure ResultView where
  script : ScriptView
  audio : AudioView

/-- Why rendering the panel fails. -/
inductive RenderError where
  /-- The component function threw a `TypeError` with this message while
  building its elements. -/
  | typeError (message : String)
  /-- React found a plain object among the children of an element ('Objects
  are not valid as a React child') and unmounted the view. -/
  | invalidChild

/-- The callback of `result.script.map` (lines 192-197): the element built for
one entry.  The properties are read here; React inspects the children later,
see `renderResult`. -/
def lineElement (eng : Engine) (line : JSValue) : Except String ScriptLine :=
  match getProp eng line "speaker" with
  | .error m => .error m
  | .ok speaker =>
      match getProp eng line "text" with
      | .error m => .error m
      | .ok text => .ok { speaker := speaker, text := text }

/-- The `map` of line 192 over the entries, in order; the first throwing
callback aborts it. -/
def lineElements (eng : Engine) : List JSValue → Except String (List ScriptLine)
  | [] => .ok []
  | line :: rest =>
      match lineElement eng line with
      | .error m => .error m
      | .ok l =>
          match lineElements eng rest with
          | .error m => .error m
          | .ok ls => .ok (l :: ls)

/-- Lines 191-200: `Array.isArray(result.script) && result.script.length > 0`
selects the transcript, anything else the empty state. -/
def scriptElement (eng : Engine) (script : Option JSValue) : Except String ScriptView :=
  match script with
  | some (.arr (line :: rest)) => (lineElements eng (line :: rest)).map ScriptView.lines
  | _ => .ok .noScript

/-- Lines 212-216: a truthy `result.audio` selects the player, whose `src` is
the template literal of line 213. -/
def audioElement (eng : Engine) (audio : Option JSValue) : Except String AudioView :=
  match audio with
  | some v =>
      if truthy (some v) then (toStr eng v).map (fun a => AudioView.player (API_BASE ++ a))
      else .ok .noAudio
  | none => .ok .noAudio

/-- Lines 175-221, `result && (...)`: the element tree the component function
returns for the panel.  `none` means that the panel is not part of the tree;
an error is the message of a `TypeError` thrown while building it. -/
def resultElement (eng : Engine) (result : JSValue) : Except String (Option ResultView) :=
  if truthy (some result) then
    match getProp eng result "script" with
    | .error m => .error m
    | .ok script =>
        match scriptElement eng script with
        | .error m => .error m
        | .ok scriptView =>
            match getProp eng result "audio" with
            | .error m => .error m
            | .ok audio =>
                match audioElement eng audio with
                | .error m => .error m
                | .ok audioView => .ok (some { script := scriptView, audio := audioView })
  else .ok none

mutual
/-- React's test of a child value: strings, numbers, booleans and `null`
are accepted, an array is accepted when each of its items is, a plain object
is rejected (parsed JSON is never a React element). -/
def validChild : JSValue → Bool
  | .obj _ => false
  | .arr items => validChildren items
  | _ => true
/-- Every item of an array child is accepted. -/
def validChildren : List JSValue → Bool
  | [] => true
  | v :: rest => validChild v && validChildren rest
end

/-- React's test of the children of one `script-line` (lines 194-195);
`undefined` is accepted. -/
def validLine (l : ScriptLine) : Bool :=
  (match l.speaker with
    | some v => validChild v
    | none => true) &&
  (match l.text with
    | some v => validChild v
    | none => true)

/-- React's test of all children of the panel that come from `result`. -/
def validView (view : ResultView) : Bool :=
  match view.script with
  | .noScript => true
  | .lines ls => ls.all validLine

/-- What the view shows for `result` (lines 175-221): the component function
builds the element tree, then React mounts it and rejects plain objects placed
as children.  `none` means that the panel is not rendered. -/
def renderResult (eng : Engine) (result : JSValue) : Except RenderError (Option ResultView) :=
  match resultElement eng result with
  | .error m => .error (.typeError m)
  | .ok none => .ok none
  | .ok (some view) => if validView view then .ok (some view) else .error .invalidChild

/-! ## Predicates used in the statements -/

/-- The state cell values after lines 37-39. -/
def clearedState (s : State) : State :=
  { s with error := "", result := .null, loading := true }

/-- Result is populated: `result` is not `null`. -/
def resultPopulated (st : State) : Prop :=
  st.result ≠ .null

/-- ErrorMessage is populated: `error` is a non-empty string. -/
def errorPopulated (st : State) : Prop :=
  st.error ≠ ""

/-- The request ended in a 2xx response whose body parses to JSON `null`. -/
def nullSuccess (o : Outcome) : Prop :=
  ∃ resp, o = .resolved resp ∧ resp.ok = true ∧ resp.json = .ok .null

/-- The six form fields of two states agree. -/
def sameForm (a b : State) : Prop :=
  a.topic = b.topic ∧ a.host = b.host ∧ a.guestsText = b.guestsText ∧ a.info = b.info ∧
  a.hostGender = b.hostGender ∧ a.guestGender = b.guestGender

/-- The `loading` flag `n` steps after `handleSubmit` is entered from `s`. -/
def loadingAt (eng : Engine) (o : Outcome) (s : State) (n : Nat) : Bool :=
  (runSteps eng o n { pc := .entry, st := s }).st.loading

/-- The success body of the specification's example. -/
def exampleBody : JSValue :=
  .obj [("script", .arr [.obj [("speaker", .str "Alex"), ("text", .str "Hello")]]),
        ("audio", .str "/files/a.mp3")]

/-- The value of `v.name` for a value `v` other than `null`: an object's own
property, `undefined` for everything else. -/
def ownField (v : JSValue) (name : String) : Option JSValue :=
  match v with
  | .obj fields => lookup name fields
  | _ => none

/-- The `script-line` element for one script entry. -/
def lineOf (entry : JSValue) : ScriptLine where
  speaker := ownField entry "speaker"
  text := ownField entry "text"

/-- The property `result.script` is absent, not a sequence, or empty. -/
def scriptAbsentNotSeqOrEmpty (script : Option JSValue) : Prop :=
  script = none ∨ (∀ items, script ≠ some (.arr items)) ∨ script = some (.arr [])

/-- The property `result.audio` is absent or empty. -/
def audioAbsentOrEmpty (audio : Option JSValue) : Prop :=
  audio = none ∨ audio = some (.str "")

/-- A value is falsy: it is `undefined`, `null`, `false`, a zero number or the
empty string. -/
def falsy (v : Option JSValue) : Prop :=
  v = none ∨ v = some .null ∨ v = some (.bool false) ∨
  (∃ n, v = some (.num n) ∧ n.isZero = true) ∨ v = some (.str "")

/-- Values that can be shown as text content: strings, numbers, booleans,
`null`, and arrays of such values; no plain object occurs in them. -/
inductive Renderable : JSValue → Prop where
  | null : Renderable .null
  | bool (b : Bool) : Renderable (.bool b)
  | num (n : JSNumber) : Renderable (.num n)
  | str (s : String) : Renderable (.str s)
  | arr (items : List JSValue) (h : ∀ v, v ∈ items → Renderable v) : Renderable (.arr items)

/-- A property used as a child is absent or can be shown as text content. -/
def renderableChild (child : Option JSValue) : Prop :=
  ∀ v, child = some v → Renderable v

/-- A guest name is non-empty, neither starts nor ends with a white-space
character, and contains no comma. -/
def cleanName (g : String) : Prop :=
  g ≠ "" ∧
  (∀ c, g.data.head? = some c → isWhiteSpace c = false) ∧
  (∀ c, g.data.getLast? = some c → isWhiteSpace c = false) ∧
  ',' ∉ g.data

end PodcastClient

namespace PodcastClient

/-! ## Lemmas on the string primitives -/

theorem splitFrom_eq_splitOn (sep : Char) (piece s : List Char) :
    splitFrom sep piece s = (s.splitOn sep).modifyHead (fun p => piece ++ p) := by
  induction s generalizing piece with
  | nil => simp [splitFrom, List.splitOn]
  | cons c rest ih =>
    unfold splitFrom
    by_cases h : c = sep
    · subst h
      rw [if_pos rfl, ih []]
      simp [List.splitOn]
      cases List.splitOnP (fun x => x == c) rest <;> simp
    · rw [if_neg h, ih (piece ++ [c])]
      have hb : (c == sep) = false := by simpa using h
      simp only [List.splitOn, List.splitOnP_cons, hb]
      cases List.splitOnP (fun x => x == sep) rest <;> simp

theorem trimStart_eq_dropWhile (s : List Char) : trimStart s = s.dropWhile isWhiteSpace := by
  induction s with
  | nil => rfl
  | cons c rest ih =>
    unfold trimStart
    by_cases h : isWhiteSpace c = true
    · simp [h, ih]
    · simp [h]

theorem trimEnd_eq_rdropWhile (s : List Char) : trimEnd s = s.rdropWhile isWhiteSpace := by
  simp [trimEnd, List.rdropWhile, trimStart_eq_dropWhile]

theorem length_mk_pos (l : List Char) : decide ((String.mk l).length > 0) = decide (l ≠ []) := by
  cases l <;> simp [String.length]

theorem guestsArray_eq_filter (guestsText : String) :
    guestsArray guestsText =
      (((guestsText.data.splitOn ',').map
        (fun piece => (piece.dropWhile isWhiteSpace).rdropWhile isWhiteSpace)).filter
        (fun piece => decide (piece ≠ []))).map String.mk := by
  have hsplit : splitFrom ',' [] guestsText.data = guestsText.data.splitOn ',' := by
    rw [splitFrom_eq_splitOn]
    cases guestsText.data.splitOn ',' <;> simp
  simp only [guestsArray, split, hsplit, List.map_map, List.filter_map]
  congr 1
  · funext piece
    simp [trim, trimEnd_eq_rdropWhile, trimStart_eq_dropWhile]
  · congr 1
    funext piece
    simp only [Function.comp, trim, trimEnd_eq_rdropWhile, trimStart_eq_dropWhile]
    exact length_mk_pos _

theorem not_mem_splitOn (sep : Char) (s piece : List Char) (h : piece ∈ s.splitOn sep) :
    sep ∉ piece := by
  induction s generalizing piece with
  | nil => simp [List.splitOn] at h; simp [h]
  | cons c rest ih =>
    simp only [List.splitOn, List.splitOnP_cons] at h
    by_cases hc : (c == sep) = true
    · simp only [hc, if_true, List.mem_cons] at h
      rcases h with h | h
      · simp [h]
      · exact ih piece h
    · simp only [hc] at h
      have hne : c ≠ sep := by simpa using hc
      cases hs : List.splitOnP (fun x => x == sep) rest with
      | nil => simp [hs] at h
      | cons first others =>
        have hfirst : sep ∉ first := ih first (by simp [List.splitOn, hs])
        simp only [hs, List.modifyHead_cons, List.mem_cons, Bool.false_eq_true, if_false] at h
        rcases h with h | h
        · subst h
          simp only [List.mem_cons, not_or]
          exact ⟨fun e => hne e.symm, hfirst⟩
        · exact ih piece (by simp [List.splitOn, hs, h])

theorem trimmed_subset (piece : List Char) :
    ∀ c ∈ (piece.dropWhile isWhiteSpace).rdropWhile isWhiteSpace, c ∈ piece := by
  intro c hc
  exact (List.dropWhile_suffix isWhiteSpace).subset
    ((List.rdropWhile_prefix isWhiteSpace _).subset hc)

theorem trimmed_head (piece : List Char) (c : Char)
    (h : ((piece.dropWhile isWhiteSpace).rdropWhile isWhiteSpace).head? = some c) :
    isWhiteSpace c = false := by
  have hne : (piece.dropWhile isWhiteSpace).rdropWhile isWhiteSpace ≠ [] := by
    intro e; simp [e] at h
  have hpre := List.rdropWhile_prefix isWhiteSpace (piece.dropWhile isWhiteSpace)
  have hne2 : piece.dropWhile isWhiteSpace ≠ [] := by
    intro e; rw [e] at hne; simp [List.rdropWhile] at hne
  have hhead := hpre.head hne
  have hnot := List.head_dropWhile_not isWhiteSpace piece hne2
  rw [List.head?_eq_head hne] at h
  have hc : c = (piece.dropWhile isWhiteSpace).head hne2 := by
    rw [← hhead]; exact (Option.some.inj h).symm
  rw [hc]; exact hnot

theorem trimmed_last (piece : List Char) (c : Char)
    (h : ((piece.dropWhile isWhiteSpace).rdropWhile isWhiteSpace).getLast? = some c) :
    isWhiteSpace c = false := by
  have hne : (piece.dropWhile isWhiteSpace).rdropWhile isWhiteSpace ≠ [] := by
    intro e; simp [e] at h
  have hnot := List.rdropWhile_last_not isWhiteSpace (piece.dropWhile isWhiteSpace) hne
  rw [List.getLast?_eq_getLast _ hne] at h
  rw [← Option.some.inj h]
  simpa using hnot

/-! ## Lemmas on the submit handler -/

theorem errorText_ne_empty (message : String) : errorText message ≠ "" := by
  unfold errorText
  split
  · rename_i h
    intro e
    rw [e] at h
    simp at h
  · decide

theorem errorText_of_ne (message : String) (h : message ≠ "") : errorText message = message := by
  unfold errorText
  have hpos : message.length > 0 := by
    rcases message with ⟨l⟩
    cases l with
    | nil => exact absurd rfl h
    | cons c rest => simp [String.length]
  simp [hpos]

theorem runSteps_add (eng : Engine) (o : Outcome) (m n : Nat) (c : Config) :
    runSteps eng o (m + n) c = runSteps eng o n (runSteps eng o m c) := by
  induction m generalizing c with
  | zero => simp [runSteps]
  | succ m ih =>
    rw [Nat.succ_add]
    simp only [runSteps]
    exact ih _

theorem runSteps_settled (eng : Engine) (o : Outcome) (n : Nat) (st : State) :
    runSteps eng o n { pc := .settled, st := st } = { pc := .settled, st := st } := by
  induction n with
  | zero => rfl
  | succ n ih => simp only [runSteps, step]; exact ih

theorem runSteps_two (eng : Engine) (o : Outcome) (s : State) :
    runSteps eng o 2 { pc := .entry, st := s } =
      { pc := .awaiting (requestBody s), st := clearedState s } := by
  simp [runSteps, step, clearedState, requestBody]

theorem runSteps_five_ok (eng : Engine) (o : Outcome) (s : State) (data : JSValue)
    (h : tryBlock eng o = .ok data) :
    runSteps eng o 5 { pc := .entry, st := s } =
      { pc := .settled, st := { s with error := "", result := data, loading := false } } := by
  simp [runSteps, step, h]

theorem runSteps_five_error (eng : Engine) (o : Outcome) (s : State) (message : String)
    (h : tryBlock eng o = .error message) :
    runSteps eng o 5 { pc := .entry, st := s } =
      { pc := .settled,
        st := { s with error := errorText message, result := .null, loading := false } } := by
  simp [runSteps, step, h]

theorem handleSubmit_ok (eng : Engine) (o : Outcome) (s : State) (data : JSValue)
    (h : tryBlock eng o = .ok data) :
    handleSubmit eng s o = { s with error := "", result := data, loading := false } := by
  simp [handleSubmit, runSteps_five_ok eng o s data h]

theorem handleSubmit_error (eng : Engine) (o : Outcome) (s : State) (message : String)
    (h : tryBlock eng o = .error message) :
    handleSubmit eng s o =
      { s with error := errorText message, result := .null, loading := false } := by
  simp [handleSubmit, runSteps_five_error eng o s message h]

theorem tryBlock_of_ok (eng : Engine) (resp : Response) (h : resp.ok = true) :
    tryBlock eng (.resolved resp) = resp.json := by
  simp [tryBlock, h]

theorem tryBlock_not_ok_throws (eng : Engine) (resp : Response) (h : resp.ok = false) :
    ∃ message, tryBlock eng (.resolved resp) = .error message := by
  simp only [tryBlock, h]
  simp only [Bool.not_false, if_true]
  split
  · exact ⟨_, rfl⟩
  · split
    · exact ⟨_, rfl⟩
    · exact ⟨_, rfl⟩

/-! ## The guest list -/

/-- C1: for every `guestsText`, `guestsArray` equals the list obtained by
splitting on `,`, trimming white space from each piece and dropping the
pieces that are empty after trimming, in the original order; in particular
`"Dr. Kim, Jordan Lee, "` gives `["Dr. Kim", "Jordan Lee"]`, and `""` and
`" , ,"` give the empty list. -/
theorem guestsArray_eq_guestListSpec (guestsText : String) :
    guestsArray guestsText = guestListSpec guestsText ∧
    guestsArray "Dr. Kim, Jordan Lee, " = ["Dr. Kim", "Jordan Lee"] ∧
    guestsArray "" = [] ∧
    guestsArray " , ," = [] := by
  refine ⟨?_, by decide, by decide, by decide⟩
  rw [guestsArray_eq_filter]
  rfl

theorem cleanName_of_mem (guestsText : String) (g : String)
    (hg : g ∈ guestsArray guestsText) : cleanName g := by
  rw [guestsArray_eq_filter] at hg
  simp only [List.mem_map, List.mem_filter, decide_eq_true_eq] at hg
  obtain ⟨t, ⟨⟨piece, hpiece, rfl⟩, hne⟩, rfl⟩ := hg
  refine ⟨?_, ?_, ?_, ?_⟩
  · intro e
    exact hne (congrArg String.data e)
  · intro c hc
    exact trimmed_head piece c hc
  · intro c hc
    exact trimmed_last piece c hc
  · intro hmem
    exact not_mem_splitOn ',' guestsText.data piece hpiece (trimmed_subset piece _ hmem)

/-- C10: for every `guestsText`, every entry of the derived guest list is
non-empty, neither starts nor ends with a white-space character and contains
no comma; for every state holding that text the `guestname` array of the
request payload is exactly that list, so every name in it has the same
properties, and so has every name in the payload with which the request is
sent. -/
theorem guestsArray_entries_clean (guestsText : String) :
    (∀ g, g ∈ guestsArray guestsText → cleanName g) ∧
    (∀ st : State, st.guestsText = guestsText →
      (requestBody st).guestname = guestsArray guestsText ∧
      (∀ g, g ∈ (requestBody st).guestname → cleanName g) ∧
      (∀ (eng : Engine) (o : Outcome), ∃ body,
        (atRequest eng o st).pc = .awaiting body ∧
        body.guestname = guestsArray guestsText ∧
        ∀ g, g ∈ body.guestname → cleanName g)) := by
  refine ⟨cleanName_of_mem guestsText, ?_⟩
  intro st hst
  subst hst
  refine ⟨rfl, ?_, ?_⟩
  · intro g hg
    exact cleanName_of_mem st.guestsText g hg
  · intro eng o
    refine ⟨requestBody st, ?_, rfl, ?_⟩
    · simp [atRequest, runSteps, step, requestBody]
    · intro g hg
      exact cleanName_of_mem st.guestsText g hg

/-- Witness for C10 on the guest text of the specification's example: the
names sent are `Dr. Kim` and `Jordan Lee`, and both are clean. -/
theorem guestsArray_entries_clean_witness :
    (requestBody { initialState with guestsText := "Dr. Kim, Jordan Lee, " }).guestname
      = ["Dr. Kim", "Jordan Lee"] ∧
    cleanName "Dr. Kim" ∧ cleanName "Jordan Lee" ∧
    (∀ g, g ∈ (requestBody { initialState with guestsText := "Dr. Kim, Jordan Lee, " }).guestname
      → cleanName g) :=
  ⟨by decide,
   (guestsArray_entries_clean "Dr. Kim, Jordan Lee, ").1 "Dr. Kim" (by decide),
   (guestsArray_entries_clean "Dr. Kim, Jordan Lee, ").1 "Jordan Lee" (by decide),
   ((guestsArray_entries_clean "Dr. Kim, Jordan Lee, ").2
      { initialState with guestsText := "Dr. Kim, Jordan Lee, " } rfl).2.1⟩

/-! ## The submit handler -/

theorem step_sameForm (eng : Engine) (o : Outcome) (c : Config) :
    sameForm (step eng o c).st c.st := by
  unfold step sameForm
  cases c.pc with
  | awaiting body => cases tryBlock eng o <;> simp
  | _ => simp

theorem runSteps_sameForm (eng : Engine) (o : Outcome) (n : Nat) (c : Config) :
    sameForm (runSteps eng o n c).st c.st := by
  induction n generalizing c with
  | zero => simp [runSteps, sameForm]
  | succ n ih =>
    have h1 := ih (step eng o c)
    have h2 := step_sameForm eng o c
    simp only [runSteps]
    unfold sameForm at *
    obtain ⟨a1, a2, a3, a4, a5, a6⟩ := h1
    obtain ⟨b1, b2, b3, b4, b5, b6⟩ := h2
    exact ⟨a1.trans b1, a2.trans b2, a3.trans b3, a4.trans b4, a5.trans b5, a6.trans b6⟩

/-- C3: whatever the prior state, in the configuration in which the request
is sent the state has `error = ''`, `result = null` and `loading = true`, the
request carries the payload built from the prior form fields, and the six
form fields are the prior ones after any number of steps of the submission. -/
theorem request_sent_after_clearing (eng : Engine) (o : Outcome) (s : State) :
    (atRequest eng o s).st.error = "" ∧
    (atRequest eng o s).st.result = .null ∧
    (atRequest eng o s).st.loading = true ∧
    sameForm (atRequest eng o s).st s ∧
    (∃ body, (atRequest eng o s).pc = .awaiting body ∧ body = requestBody s) ∧
    (∀ n, sameForm (runSteps eng o n { pc := .entry, st := s }).st s) := by
  refine ⟨?_, ?_, ?_, ?_, ?_, ?_⟩
  · simp [atRequest, runSteps_two, clearedState]
  · simp [atRequest, runSteps_two, clearedState]
  · simp [atRequest, runSteps_two, clearedState]
  · exact runSteps_sameForm eng o 2 _
  · exact ⟨requestBody s, by simp [atRequest, runSteps_two], rfl⟩
  · intro n
    exact runSteps_sameForm eng o n _

/-- C6: for every 2xx response whose body parses as JSON, after
`handleSubmit` settles `result` is the parsed body, unchanged, and `error` is
the empty string. -/
theorem success_stores_parsed_body (eng : Engine) (s : State) (resp : Response)
    (data : JSValue) (hok : resp.ok = true) (hjson : resp.json = .ok data) :
    (handleSubmit eng s (.resolved resp)).result = data ∧
    (handleSubmit eng s (.resolved resp)).error = "" := by
  have h : tryBlock eng (.resolved resp) = .ok data := by
    rw [tryBlock_of_ok eng resp hok, hjson]
  simp [handleSubmit_ok eng _ s data h]

/-- Witness for C6: the success response of the specification's example. -/
theorem success_stores_parsed_body_witness :
    (Response.mk 200 (.ok exampleBody)).ok = true ∧
    (handleSubmit v8 initialState (.resolved (Response.mk 200 (.ok exampleBody)))).result
      = exampleBody ∧
    (handleSubmit v8 initialState (.resolved (Response.mk 200 (.ok exampleBody)))).error
      = "" :=
  ⟨by decide,
   success_stores_parsed_body v8 initialState (Response.mk 200 (.ok exampleBody)) exampleBody
     (by decide) rfl⟩

/-- C7: when `fetch` rejects, or a 2xx body fails to parse, with an error
carrying `message`, then after `handleSubmit` settles `error` is `message` if
that is non-empty and 'Something went wrong' otherwise, and `result` is
`null`. -/
theorem thrown_failure_sets_error (eng : Engine) (s : State) (o : Outcome) (message : String)
    (h : o = .rejected message ∨
      ∃ resp, o = .resolved resp ∧ resp.ok = true ∧ resp.json = .error message) :
    (message ≠ "" → (handleSubmit eng s o).error = message) ∧
    (message = "" → (handleSubmit eng s o).error = "Something went wrong") ∧
    (handleSubmit eng s o).result = .null := by
  have ht : tryBlock eng o = .error message := by
    rcases h with h | ⟨resp, h, hok, hjson⟩
    · subst h; rfl
    · subst h; rw [tryBlock_of_ok eng resp hok, hjson]
  rw [handleSubmit_error eng o s message ht]
  refine ⟨?_, ?_, rfl⟩
  · intro hne
    exact errorText_of_ne message hne
  · intro he
    subst he
    rfl

/-- Witness for C7: a rejected `fetch` with the message 'Failed to fetch', and
one with an empty message. -/
theorem thrown_failure_sets_error_witness :
    (handleSubmit v8 initialState (.rejected "Failed to fetch")).error = "Failed to fetch" ∧
    (handleSubmit v8 initialState (.rejected "")).error = "Something went wrong" ∧
    (handleSubmit v8 initialState (.rejected "Failed to fetch")).result = .null :=
  ⟨(thrown_failure_sets_error v8 initialState (.rejected "Failed to fetch") "Failed to fetch"
      (Or.inl rfl)).1 (by decide),
   (thrown_failure_sets_error v8 initialState (.rejected "") "" (Or.inl rfl)).2.1 rfl,
   (thrown_failure_sets_error v8 initialState (.rejected "Failed to fetch") "Failed to fetch"
      (Or.inl rfl)).2.2⟩

/-- C2, refuted as stated: after a 200 response whose body is the JSON text
`null`, `result` is `null` and `error` is empty, so neither is populated. -/
theorem exactly_one_fails_on_null_body :
    ¬ Xor' (resultPopulated (handleSubmit v8 initialState
              (.resolved (Response.mk 200 (.ok .null)))))
           (errorPopulated (handleSubmit v8 initialState
              (.resolved (Response.mk 200 (.ok .null))))) := by
  have h : handleSubmit v8 initialState (.resolved (Response.mk 200 (.ok .null)))
      = { initialState with error := "", result := .null, loading := false } :=
    handleSubmit_ok v8 _ initialState .null rfl
  rw [h]
  simp [Xor', resultPopulated, errorPopulated]

/-- C2, amended: for every prior state and every outcome of the request,
once `handleSubmit` settles `result` and `error` are never both populated,
and exactly one of them is populated unless the response was 2xx with a body
parsing to JSON `null`, in which case neither is. -/
theorem exactly_one_unless_null_body (eng : Engine) (s : State) (o : Outcome) :
    ¬ (resultPopulated (handleSubmit eng s o) ∧ errorPopulated (handleSubmit eng s o)) ∧
    (Xor' (resultPopulated (handleSubmit eng s o)) (errorPopulated (handleSubmit eng s o))
      ↔ ¬ nullSuccess o) ∧
    (nullSuccess o ↔
      (handleSubmit eng s o).result = .null ∧ (handleSubmit eng s o).error = "") := by
  cases ht : tryBlock eng o with
  | error message =>
    have hns : ¬ nullSuccess o := by
      rintro ⟨resp, rfl, hok, hjson⟩
      rw [tryBlock_of_ok eng resp hok, hjson] at ht
      cases ht
    have hne := errorText_ne_empty message
    rw [handleSubmit_error eng o s message ht]
    simp [Xor', resultPopulated, errorPopulated, hns, hne]
  | ok data =>
    have hns : nullSuccess o ↔ data = .null := by
      constructor
      · rintro ⟨resp, rfl, hok, hjson⟩
        rw [tryBlock_of_ok eng resp hok, hjson] at ht
        cases ht
        rfl
      · intro hd
        subst hd
        cases o with
        | rejected message => cases ht
        | resolved resp =>
          cases hok : resp.ok with
          | false =>
            obtain ⟨m, hm⟩ := tryBlock_not_ok_throws eng resp hok
            rw [hm] at ht
            cases ht
          | true =>
            rw [tryBlock_of_ok eng resp hok] at ht
            exact ⟨resp, rfl, hok, ht⟩
    rw [handleSubmit_ok eng o s data ht]
    simp [Xor', resultPopulated, errorPopulated, hns]

/-- C4, refuted as stated: a 500 response whose body is `{"error": ""}`
carries an `error` field holding a string, but `error` ends up as the
synthesized message, not as that string. -/
theorem empty_error_field_not_shown :
    (Response.mk 500 (.ok (.obj [("error", .str "")]))).ok = false ∧
    getProp v8 (.obj [("error", .str "")]) "error" = .ok (some (.str "")) ∧
    (handleSubmit v8 initialState
      (.resolved (Response.mk 500 (.ok (.obj [("error", .str "")]))))).error ≠ "" ∧
    (handleSubmit v8 initialState
      (.resolved (Response.mk 500 (.ok (.obj [("error", .str "")]))))).error
        = "Request failed with 500" := by
  have h : handleSubmit v8 initialState
      (.resolved (Response.mk 500 (.ok (.obj [("error", .str "")]))))
      = { initialState with error := errorText "Request failed with 500", result := .null,
                            loading := false } :=
    handleSubmit_error v8 _ initialState "Request failed with 500" rfl
  rw [h]
  refine ⟨by decide, rfl, by decide, by decide⟩

/-- C4, amended: for every non-2xx response whose body parses as JSON and
carries an `error` field holding a non-empty string, after `handleSubmit`
settles `error` is that string and `result` is `null`. -/
theorem server_error_text_shown (eng : Engine) (s : State) (resp : Response) (data : JSValue)
    (message : String) (hok : resp.ok = false) (hjson : resp.json = .ok data)
    (hfield : getProp eng data "error" = .ok (some (.str message))) (hne : message ≠ "") :
    (handleSubmit eng s (.resolved resp)).error = message ∧
    (handleSubmit eng s (.resolved resp)).result = .null := by
  have hpos : message.length > 0 := by
    rcases message with ⟨l⟩
    cases l with
    | nil => exact absurd rfl hne
    | cons c rest => simp [String.length]
  have ht : tryBlock eng (.resolved resp) = .error message := by
    simp [tryBlock, hok, hjson, hfield, truthy, hpos, toStr]
  rw [handleSubmit_error eng _ s message ht, errorText_of_ne message hne]
  exact ⟨rfl, rfl⟩

/-- Witness for C4: status 500 with body `{"error":"model timeout"}`. -/
theorem server_error_text_shown_witness :
    (handleSubmit v8 initialState
      (.resolved (Response.mk 500 (.ok (.obj [("error", .str "model timeout")]))))).error
        = "model timeout" ∧
    (handleSubmit v8 initialState
      (.resolved (Response.mk 500 (.ok (.obj [("error", .str "model timeout")]))))).result
        = .null :=
  server_error_text_shown v8 initialState
    (Response.mk 500 (.ok (.obj [("error", .str "model timeout")])))
    (.obj [("error", .str "model timeout")]) "model timeout"
    (by decide) rfl rfl (by decide)

theorem statusMessage_ne_empty (status : Nat) :
    "Request failed with " ++ toString status ≠ "" := by
  intro e
  have h := congrArg String.length e
  simp [String.length_append] at h
  have h2 : "Request failed with ".length = 20 := by decide
  omega

/-- The fallback of line 48: for a non-2xx response whose body does not parse,
or parses to a value other than `null` without an `error` property, `error`
ends up as `Request failed with N`, which ends with the decimal status. -/
theorem status_message_without_error_field (eng : Engine) (s : State) (resp : Response)
    (hok : resp.ok = false)
    (hbody : (∃ m, resp.json = .error m) ∨
      (∃ data, resp.json = .ok data ∧ getProp eng data "error" = .ok none)) :
    (handleSubmit eng s (.resolved resp)).error
      = "Request failed with " ++ toString resp.status ∧
    (toString resp.status).data <:+ (handleSubmit eng s (.resolved resp)).error.data ∧
    (handleSubmit eng s (.resolved resp)).result = .null := by
  have ht : tryBlock eng (.resolved resp)
      = .error ("Request failed with " ++ toString resp.status) := by
    rcases hbody with ⟨m, hm⟩ | ⟨data, hd, hfield⟩
    · simp [tryBlock, hok, hm, getProp, lookup, toStr]
    · simp [tryBlock, hok, hd, hfield, toStr]
  rw [handleSubmit_error eng _ s _ ht, errorText_of_ne _ (statusMessage_ne_empty resp.status)]
  refine ⟨rfl, ?_, rfl⟩
  exact ⟨"Request failed with ".data, by simp [String.data_append]⟩

/-- C5, evaluated at the failing input: for a 500 response whose body is the
JSON text `null` (which parses and has no `error` field) the read `data.error`
throws, and `error` ends up as the engine's `TypeError` text, which is not
`Request failed with 500` and does not contain `500`. -/
theorem null_error_body_shows_type_error :
    (Response.mk 500 (.ok .null)).ok = false ∧
    (handleSubmit v8 initialState (.resolved (Response.mk 500 (.ok .null)))).error
      = "Cannot read properties of null (reading 'error')" ∧
    (handleSubmit v8 initialState (.resolved (Response.mk 500 (.ok .null)))).error
      ≠ "Request failed with 500" ∧
    ¬ ("500".data <:+: (handleSubmit v8 initialState
        (.resolved (Response.mk 500 (.ok .null)))).error.data) := by
  have h : handleSubmit v8 initialState (.resolved (Response.mk 500 (.ok .null)))
      = { initialState with
            error := errorText "Cannot read properties of null (reading 'error')",
            result := .null, loading := false } :=
    handleSubmit_error v8 _ initialState _ rfl
  rw [h]
  refine ⟨by decide, by decide, by decide, by decide⟩

theorem loadingAt_eq (eng : Engine) (o : Outcome) (s : State) (n : Nat) :
    loadingAt eng o s n = if n = 0 then s.loading else decide (n ≤ 4) := by
  match n with
  | 0 => rfl
  | 1 => rfl
  | 2 => rfl
  | 3 => cases ht : tryBlock eng o <;> simp [loadingAt, runSteps, step, ht]
  | 4 => cases ht : tryBlock eng o <;> simp [loadingAt, runSteps, step, ht]
  | k + 5 =>
    have hfix : runSteps eng o (k + 5) { pc := .entry, st := s }
        = runSteps eng o 5 { pc := .entry, st := s } := by
      rw [Nat.add_comm, runSteps_add]
      cases ht : tryBlock eng o with
      | ok data => rw [runSteps_five_ok eng o s data ht, runSteps_settled]
      | error m => rw [runSteps_five_error eng o s m ht, runSteps_settled]
    simp only [loadingAt, hfix]
    cases ht : tryBlock eng o with
    | ok data => rw [runSteps_five_ok eng o s data ht]; simp
    | error m => rw [runSteps_five_error eng o s m ht]; simp

/-- C8: in one submission, for every prior state and every outcome (success,
non-2xx response, thrown failure), `loading` is `true` after each of the first
four steps (clearing, sending the request, leaving the `try` block, storing
the result or the error) and `false` from the fifth step on, when the handler
has settled; the fifth step, the `finally` block, is the only step in
which `loading` goes from `true` to `false`. -/
theorem loading_until_settlement (eng : Engine) (o : Outcome) (s : State) :
    (∀ k : Fin 4, loadingAt eng o s (k.val + 1) = true) ∧
    (∀ n, loadingAt eng o s (n + 5) = false) ∧
    (∀ n, (runSteps eng o (n + 5) { pc := .entry, st := s }).pc = .settled) ∧
    (∀ n, (loadingAt eng o s n = true ∧ loadingAt eng o s (n + 1) = false) ↔ n = 4) := by
  refine ⟨?_, ?_, ?_, ?_⟩
  · intro k
    rw [loadingAt_eq]
    have := k.isLt
    simp
    omega
  · intro n
    rw [loadingAt_eq]
    simp
  · intro n
    rw [Nat.add_comm, runSteps_add]
    cases ht : tryBlock eng o with
    | ok data => rw [runSteps_five_ok eng o s data ht, runSteps_settled]
    | error m => rw [runSteps_five_error eng o s m ht, runSteps_settled]
  · intro n
    rw [loadingAt_eq, loadingAt_eq]
    by_cases h0 : n = 0
    · subst h0; simp
    · simp [h0]
      omega

/-! ## The result panel -/

theorem string_length_pos_iff (s : String) : decide (s.length > 0) = false ↔ s = "" := by
  rcases s with ⟨l⟩
  cases l with
  | nil => simp [String.length]
  | cons c rest =>
    simp only [String.length, List.length_cons, gt_iff_lt, Nat.zero_lt_succ, decide_True,
      Bool.true_eq_false, false_iff]
    intro e
    have h := congrArg String.data e
    cases h

theorem falsy_iff_truthy (c : Option JSValue) : falsy c ↔ truthy c = false := by
  cases c with
  | none => simp [falsy, truthy]
  | some v =>
    cases v with
    | null => simp [falsy, truthy]
    | bool b => cases b <;> simp [falsy, truthy]
    | num n => cases h : n.isZero <;> simp [falsy, truthy, h]
    | str t =>
      rw [truthy, string_length_pos_iff]
      simp [falsy]
    | arr items => simp [falsy, truthy]
    | obj fields => simp [falsy, truthy]

theorem truthy_of_not_falsy (c : Option JSValue) (h : ¬ falsy c) : truthy c = true := by
  cases ht : truthy c with
  | true => rfl
  | false => exact absurd ((falsy_iff_truthy c).mpr ht) h

theorem getProp_of_ne_null (eng : Engine) (v : JSValue) (name : String)
    (h : v ≠ .null) : getProp eng v name = .ok (ownField v name) := by
  cases v <;> simp [getProp, ownField] at h ⊢

theorem validChildren_of_forall (items : List JSValue)
    (h : ∀ v, v ∈ items → validChild v = true) : validChildren items = true := by
  induction items with
  | nil => simp [validChildren]
  | cons v rest ih =>
    simp only [validChildren, Bool.and_eq_true]
    exact ⟨h v (by simp), ih (fun w hw => h w (List.mem_cons_of_mem _ hw))⟩

theorem validChild_of_renderable (v : JSValue) (h : Renderable v) : validChild v = true := by
  induction h with
  | null => simp [validChild]
  | bool b => simp [validChild]
  | num n => simp [validChild]
  | str t => simp [validChild]
  | arr items _ ih =>
    simp only [validChild]
    exact validChildren_of_forall items ih

theorem validLine_lineOf (entry : JSValue)
    (hs : renderableChild (ownField entry "speaker"))
    (ht : renderableChild (ownField entry "text")) : validLine (lineOf entry) = true := by
  simp only [validLine, lineOf, Bool.and_eq_true]
  constructor
  · cases h : ownField entry "speaker" with
    | none => rfl
    | some v => exact validChild_of_renderable v (hs v h)
  · cases h : ownField entry "text" with
    | none => rfl
    | some v => exact validChild_of_renderable v (ht v h)

theorem lineElements_eq_map (eng : Engine) (items : List JSValue)
    (h : ∀ e, e ∈ items → e ≠ .null) : lineElements eng items = .ok (items.map lineOf) := by
  induction items with
  | nil => rfl
  | cons entry rest ih =>
    have hentry : entry ≠ .null := h entry (by simp)
    have hrest : ∀ e, e ∈ rest → e ≠ .null := fun e m => h e (List.mem_cons_of_mem _ m)
    simp [lineElements, lineElement, getProp_of_ne_null eng entry _ hentry, ih hrest, lineOf]

theorem scriptElement_states (eng : Engine) (script : Option JSValue)
    (h : ∀ items, script = some (.arr items) → ∀ e, e ∈ items →
      e ≠ .null ∧ renderableChild (ownField e "speaker") ∧
      renderableChild (ownField e "text")) :
    ∃ sv, scriptElement eng script = .ok sv ∧
      (∀ av, validView { script := sv, audio := av } = true) ∧
      (sv = .noScript ↔ scriptAbsentNotSeqOrEmpty script) ∧
      (∀ items, script = some (.arr items) → items ≠ [] → sv = .lines (items.map lineOf)) := by
  have hno : ∀ sc : Option JSValue, (∀ items, sc = some (.arr items) → items = []) →
      scriptAbsentNotSeqOrEmpty sc →
      ∃ sv, (Except.ok ScriptView.noScript : Except String ScriptView) = .ok sv ∧
        (∀ av, validView { script := sv, audio := av } = true) ∧
        (sv = .noScript ↔ scriptAbsentNotSeqOrEmpty sc) ∧
        (∀ items, sc = some (.arr items) → items ≠ [] → sv = .lines (items.map lineOf)) := by
    intro sc hsc hp
    exact ⟨.noScript, rfl, fun _ => rfl, ⟨fun _ => hp, fun _ => rfl⟩,
      fun items hi hne => absurd (hsc items hi) hne⟩
  have hnot : ∀ v : JSValue, (∀ items, v ≠ .arr items) →
      scriptAbsentNotSeqOrEmpty (some v) := by
    intro v hv
    refine Or.inr (Or.inl ?_)
    intro items hi
    exact hv items (Option.some.inj hi)
  cases script with
  | none => exact hno none (by intro items hi; cases hi) (Or.inl rfl)
  | some v =>
    cases v with
    | arr items =>
      cases items with
      | nil =>
        exact hno _ (by intro items hi; cases hi; rfl) (Or.inr (Or.inr rfl))
      | cons entry rest =>
        have hall := h (entry :: rest) rfl
        refine ⟨.lines ((entry :: rest).map lineOf), ?_, ?_, ?_, ?_⟩
        · simp only [scriptElement,
            lineElements_eq_map eng _ (fun e he => (hall e he).1)]
          rfl
        · intro av
          simp only [validView, List.all_eq_true, List.mem_map]
          rintro l ⟨e, he, rfl⟩
          exact validLine_lineOf e (hall e he).2.1 (hall e he).2.2
        · constructor
          · intro e; cases e
          · rintro (hp | hp | hp)
            · cases hp
            · exact absurd rfl (hp (entry :: rest))
            · cases hp
        · intro items hi _
          cases hi
          rfl
    | null =>
      exact hno _ (by intro items hi; cases hi) (hnot _ (by intro items hi; cases hi))
    | bool b =>
      exact hno _ (by intro items hi; cases hi) (hnot _ (by intro items hi; cases hi))
    | num n =>
      exact hno _ (by intro items hi; cases hi) (hnot _ (by intro items hi; cases hi))
    | str t =>
      exact hno _ (by intro items hi; cases hi) (hnot _ (by intro items hi; cases hi))
    | obj fields =>
      exact hno _ (by intro items hi; cases hi) (hnot _ (by intro items hi; cases hi))

theorem audioElement_states (eng : Engine) (audio : Option JSValue)
    (h : ∀ v, audio = some v → ¬ falsy (some v) → ∃ a, toStr eng v = .ok a) :
    ∃ av, audioElement eng audio = .ok av ∧
      (av = .noAudio ↔ falsy audio) ∧
      (∀ v a, audio = some v → ¬ falsy (some v) → toStr eng v = .ok a →
        av = .player (API_BASE ++ a)) := by
  cases audio with
  | none =>
    exact ⟨.noAudio, rfl, ⟨fun _ => Or.inl rfl, fun _ => rfl⟩, fun v a hv => by cases hv⟩
  | some v =>
    cases ht : truthy (some v) with
    | false =>
      have hf : falsy (some v) := (falsy_iff_truthy _).mpr ht
      refine ⟨.noAudio, by simp [audioElement, ht], ⟨fun _ => hf, fun _ => rfl⟩, ?_⟩
      intro w a hw hwf
      cases hw
      exact absurd hf hwf
    | true =>
      have hnf : ¬ falsy (some v) := by
        intro hf
        rw [(falsy_iff_truthy _).mp hf] at ht
        cases ht
      obtain ⟨a, ha⟩ := h v rfl hnf
      refine ⟨.player (API_BASE ++ a), by simp [audioElement, ht, ha, Except.map], ?_, ?_⟩
      · constructor
        · intro e; cases e
        · intro hf; exact absurd hf hnf
      · intro w b hw _ hb
        cases hw
        rw [ha] at hb
        cases hb
        rfl

/-- A script entry whose `speaker` is a plain object: the elements are built,
but React rejects the object as a child and nothing is rendered. -/
theorem object_speaker_is_rejected :
    renderResult v8
      (.obj [("script", .arr [.obj [("speaker", .obj [("x", .str "y")]), ("text", .str "t")]])])
      = .error .invalidChild := rfl

/-- A `null` script entry: reading `line.speaker` throws while the elements
are built. -/
theorem null_entry_throws :
    renderResult v8 (.obj [("script", .arr [.null])])
      = .error (.typeError "Cannot read properties of null (reading 'speaker')") := rfl

/-- C9, refuted as stated: for the result `{"audio": false}` the panel shows
the 'No audio url returned.' state although `result.audio` is neither absent
nor the empty string. -/
theorem no_audio_state_for_false_audio :
    renderResult v8 (.obj [("audio", .bool false)])
      = .ok (some { script := .noScript, audio := .noAudio }) ∧
    ¬ audioAbsentOrEmpty (ownField (.obj [("audio", .bool false)]) "audio") := by
  refine ⟨rfl, ?_⟩
  have h : ownField (.obj [("audio", .bool false)]) "audio" = some (.bool false) := rfl
  rw [h]
  rintro (e | e) <;> cases e

/-- C9, amended: take any `result` that is not falsy (not `null`, `false`,
zero or the empty string), whose script entries, if `result.script` is an
array, are not `null` and have a `speaker` and a `text` that are absent or
showable as text (no plain object in them), and whose `audio`, if not falsy,
converts to a string.  Then the panel is rendered; it shows the 'No script
produced.' state exactly when `result.script` is absent, not a sequence or
empty, and otherwise one speaker/text line per script entry, in order; it
shows the 'No audio url returned.' state exactly when `result.audio` is falsy
(absent, `null`, `false`, zero or the empty string), and otherwise an audio
element whose source is `API_BASE` followed by `result.audio` (by its string
form when it is not a string). -/
theorem result_panel_states (eng : Engine) (r : JSValue) (hr : ¬ falsy (some r))
    (hentries : ∀ items, ownField r "script" = some (.arr items) → ∀ e, e ∈ items →
      e ≠ .null ∧ renderableChild (ownField e "speaker") ∧
      renderableChild (ownField e "text"))
    (haudio : ∀ v, ownField r "audio" = some v → ¬ falsy (some v) →
      ∃ a, toStr eng v = .ok a) :
    ∃ view, renderResult eng r = .ok (some view) ∧
      (view.script = .noScript ↔ scriptAbsentNotSeqOrEmpty (ownField r "script")) ∧
      (∀ items, ownField r "script" = some (.arr items) → items ≠ [] →
        view.script = .lines (items.map lineOf)) ∧
      (view.audio = .noAudio ↔ falsy (ownField r "audio")) ∧
      (∀ t, ownField r "audio" = some (.str t) → t ≠ "" →
        view.audio = .player (API_BASE ++ t)) ∧
      (∀ v a, ownField r "audio" = some v → ¬ falsy (some v) → toStr eng v = .ok a →
        view.audio = .player (API_BASE ++ a)) := by
  obtain ⟨sv, hsv, hvalid, hs1, hs2⟩ :=
    scriptElement_states eng (ownField r "script") hentries
  obtain ⟨av, hav, ha1, ha2⟩ := audioElement_states eng (ownField r "audio") haudio
  have hne : r ≠ .null := by
    intro e
    exact hr (by rw [e]; exact Or.inr (Or.inl rfl))
  have helem : resultElement eng r = .ok (some { script := sv, audio := av }) := by
    simp [resultElement, truthy_of_not_falsy _ hr, getProp_of_ne_null eng r _ hne, hsv, hav]
  refine ⟨{ script := sv, audio := av }, ?_, hs1, hs2, ha1, ?_, ha2⟩
  · simp [renderResult, helem, hvalid av]
  · intro t ht hte
    refine ha2 (.str t) t ht ?_ rfl
    rintro (e | e | e | ⟨n, e, _⟩ | e)
    · cases e
    · cases e
    · cases e
    · cases e
    · exact hte (by cases e; rfl)

/-- Witness for C9: the success body of the specification's example gives one
line (Alex / Hello) and a player for the backend origin followed by
`/files/a.mp3`. -/
theorem result_panel_states_witness :
    renderResult v8 exampleBody
      = .ok (some
          { script := .lines [{ speaker := some (.str "Alex"), text := some (.str "Hello") }],
            audio := .player "https://ai-podcast-backend-gen.onrender.com/files/a.mp3" }) := by
  obtain ⟨view, hview, _, hlines, _, hstr, _⟩ := result_panel_states v8 exampleBody
    (by
      rintro (e | e | e | ⟨n, e, _⟩ | e) <;> cases e)
    (by
      intro items hi e he
      have h : ownField exampleBody "script"
          = some (.arr [.obj [("speaker", .str "Alex"), ("text", .str "Hello")]]) := rfl
      rw [h] at hi
      cases hi
      simp only [List.mem_singleton] at he
      subst he
      refine ⟨(by intro e; cases e), ?_, ?_⟩
      · intro v hv
        have h2 : ownField (.obj [("speaker", .str "Alex"), ("text", .str "Hello")]) "speaker"
            = some (.str "Alex") := rfl
        rw [h2] at hv
        cases hv
        exact Renderable.str _
      · intro v hv
        have h2 : ownField (.obj [("speaker", .str "Alex"), ("text", .str "Hello")]) "text"
            = some (.str "Hello") := rfl
        rw [h2] at hv
        cases hv
        exact Renderable.str _)
    (by
      intro v hv _
      have h : ownField exampleBody "audio" = some (.str "/files/a.mp3") := rfl
      rw [h] at hv
      cases hv
      exact ⟨_, rfl⟩)
  have hs := hlines [.obj [("speaker", .str "Alex"), ("text", .str "Hello")]] rfl (by simp)
  have ha := hstr "/files/a.mp3" rfl (by decide)
  rw [hview]
  cases view with
  | mk script audio =>
    simp only at hs ha
    subst hs
    subst ha
    rfl

end PodcastClient
